import Mathlib

/-!
# Verification of the PLM plugin lifecycle manager

A shallow embedding of the core of the `plm` repository (files
`src/config.rs`, `src/core.rs`, `src/traits.rs`) and proofs about it.

Conventions of the embedding:
* `HashMap<String, V>` is embedded as an association list `List (String × V)`
  whose well-formedness invariant (no duplicate keys) is stated explicitly
  where a theorem needs it; `HashMap::insert` keeps the stored key and
  replaces the value, which `insertA` mirrors.
* `Arc<dyn Plugin>` is embedded as `ArcPlugin`: the adapter instance
  together with a flag recording whether any other clone of the `Arc` is
  alive, in which case `Arc::get_mut` returns `None`.
* A trait object `dyn Plugin` is embedded by its observable behaviour for
  the operations the manager invokes: its metadata, its status, whether its
  own `initialize`/`shutdown` succeed or with which error they fail, and its
  `install` function.
* Methods taking `&mut self` are embedded in state-passing style
  (`Manager → result × Manager`); methods taking `&self` return the manager
  unchanged, which is exactly what the shared borrow guarantees.
* `serde_json` values are embedded as the tree `JValue` (numbers as `Int`);
  `chrono::DateTime<Utc>` is embedded as its RFC3339 rendering, a `String`.
  The derived `Serialize`/`Deserialize` implementations of the structs in
  `config.rs` are embedded as `toJson`/`fromJson` functions following the
  serde derive semantics (structs as objects looked up field by field,
  missing `Option` fields read as `None`, maps deserialized by inserting
  each entry in order); the text layer of `serde_json` and the file system
  (`tokio::fs`) are the external collaborators and are treated as faithful
  transport of the tree.
-/

/-- `serde_json::Value`, with numbers restricted to integers (no claim in
scope involves floating point). -/
inductive JValue where
  | null : JValue
  | bool : Bool → JValue
  | num : Int → JValue
  | str : String → JValue
  | arr : List JValue → JValue
  | obj : List (String × JValue) → JValue

/-- `HashMap::insert`: if the key is present the value is updated and the
stored key is kept, otherwise the pair is appended. -/
def insertA (m : List (String × α)) (k : String) (v : α) : List (String × α) :=
  match m with
  | [] => [(k, v)]
  | (k', v') :: rest => if k' == k then (k', v) :: rest else (k', v') :: insertA rest k v

/-- Building a `HashMap` from a sequence of entries by inserting them in
order (how serde deserializes a map). -/
def ofEntries (es : List (String × α)) : List (String × α) :=
  es.foldl (fun m kv => insertA m kv.1 kv.2) []

/-- The keys of an association list embedding a `HashMap` are distinct: the
representation invariant every real `HashMap` satisfies. -/
def NodupKeys (m : List (String × α)) : Prop :=
  (m.map Prod.fst).Nodup

instance (m : List (String × α)) : Decidable (NodupKeys m) := by
  unfold NodupKeys; infer_instance

set_option linter.dupNamespace false in
/-- `PluginError` (traits.rs): the error taxonomy. -/
inductive PluginError where
  | InstallationError (s : String)
  | ConfigError (s : String)
  | NetworkError (s : String)
  | IoError (s : String)
  | ValidationError (s : String)
  | NotFound (s : String)
  | PermissionDenied (s : String)
  | PluginError (s : String)

/-- The `Display` rendering of `PluginError` given by its `thiserror`
attributes (traits.rs), used where `core.rs` formats an error into a
message string. -/
def errDisplay : PluginError → String
  | .InstallationError s => "Installation failed: " ++ s
  | .ConfigError s => "Configuration error: " ++ s
  | .NetworkError s => "Network error: " ++ s
  | .IoError s => "IO error: " ++ s
  | .ValidationError s => "Validation error: " ++ s
  | .NotFound s => "Plugin not found: " ++ s
  | .PermissionDenied s => "Permission denied: " ++ s
  | .PluginError s => "Plugin error: " ++ s

/-- `PluginMetadata` (traits.rs). -/
structure PluginMetadata where
  name : String
  version : String
  description : String
  author : String
  homepage : Option String
  repository : Option String
  supported_platforms : List String
  tags : List String
  dependencies : List String
  min_plm_version : Option String

/-- `PluginStatus` (traits.rs). -/
inductive PluginStatus where
  | Active : PluginStatus
  | Inactive : PluginStatus
  | Loading : PluginStatus
  | Error : String → PluginStatus

/-- `InstallOptions` (traits.rs). -/
structure InstallOptions where
  force : Bool
  debug : Bool
  yes : Bool
  quiet : Bool
  install_dir : Option String
  env_vars : List (String × String)

/-- `InstallOptions::default` (traits.rs). -/
def InstallOptions.new : InstallOptions :=
  { force := false, debug := false, yes := false, quiet := false,
    install_dir := none, env_vars := [] }

/-- A `dyn Plugin` trait object, embedded by its observable behaviour for
the operations `PluginManager` invokes: `metadata()` and `status()` are pure
snapshots; `initialize()`/`shutdown()` either succeed (transitioning the
status as the contract describes) or fail with the recorded adapter-defined
error; `install` is an arbitrary function of the version and options. -/
structure Plugin where
  metadata : PluginMetadata
  status : PluginStatus
  initError : Option PluginError
  shutdownError : Option PluginError
  installFn : String → InstallOptions → Except PluginError String

/-- The adapter's own `initialize()`: fails with its recorded error, or
succeeds transitioning the status to `Active`. -/
def Plugin.runInitialize (p : Plugin) : Except PluginError Plugin :=
  match p.initError with
  | some e => .error e
  | none => .ok { p with status := .Active }

/-- The adapter's own `shutdown()`: fails with its recorded error, or
succeeds transitioning the status to `Inactive`. -/
def Plugin.runShutdown (p : Plugin) : Except PluginError Plugin :=
  match p.shutdownError with
  | some e => .error e
  | none => .ok { p with status := .Inactive }

/-- An `Arc<dyn Plugin>` handle as stored in the registry: the adapter plus
whether another clone of the `Arc` is alive (held by some other party). -/
structure ArcPlugin where
  plugin : Plugin
  shared : Bool

/-- `Arc::get_mut`: exclusive access succeeds exactly when no other clone of
the handle is alive. -/
def ArcPlugin.get_mut (a : ArcPlugin) : Option Plugin :=
  if a.shared then none else some a.plugin

/-! ## Configuration model (config.rs) -/

/-- `chrono::DateTime<Utc>`, embedded as its RFC3339 rendering. -/
abbrev DateTimeUtc := String

/-- `ProjectInfo` (config.rs). -/
structure ProjectInfo where
  name : String
  version : String
  description : Option String
  root_path : String
  created_at : DateTimeUtc
  updated_at : DateTimeUtc

/-- `GlobalSettings` (config.rs); `u32`/`u64` fields are embedded as `Nat`. -/
structure GlobalSettings where
  cache_dir : String
  registry_url : String
  auto_update : Bool
  parallel_downloads : Nat
  verify_checksums : Bool
  auto_discovery : Bool
  validate_on_install : Bool
  enable_hooks : Bool
  plugin_dir : String
  log_level : String
  download_timeout : Nat

/-- `GlobalSettings::default` (config.rs). -/
def GlobalSettings.default : GlobalSettings :=
  { cache_dir := "~/.plm/cache",
    registry_url := "https://registry.plm.dev",
    auto_update := true,
    parallel_downloads := 4,
    verify_checksums := true,
    auto_discovery := true,
    validate_on_install := true,
    enable_hooks := true,
    plugin_dir := "~/.plm/plugins",
    log_level := "info",
    download_timeout := 300 }

/-- `PluginSourceType` (config.rs). -/
inductive PluginSourceType where
  | Builtin : PluginSourceType
  | Local : PluginSourceType
  | Git : PluginSourceType
  | Http : PluginSourceType
  | Registry : PluginSourceType

/-- `PluginSource` (config.rs). -/
structure PluginSource where
  source_type : PluginSourceType
  url : String
  branch : Option String
  tag : Option String
  token : Option String

/-- `PluginConfig` (config.rs); `settings : HashMap<String, serde_json::Value>`
is the association list of pairs. -/
structure PluginConfig where
  name : String
  enabled : Bool
  version : Option String
  source : Option PluginSource
  settings : List (String × JValue)
  auto_update : Bool

/-- `ProjectConfig` (config.rs), including the legacy compatibility fields. -/
structure ProjectConfig where
  project : ProjectInfo
  global_settings : GlobalSettings
  plugins : List (String × PluginConfig)
  sources : List PluginSource
  project_name : String
  project_root : String
  version : String
  settings : GlobalSettings

/-- `ProjectConfig::default_for_project` (config.rs). `Utc::now()` is an
effect of the environment; the timestamp it returns is passed in as `now`. -/
def ProjectConfig.default_for_project (now : DateTimeUtc) (name root_path : String) :
    ProjectConfig :=
  let settings := GlobalSettings.default
  { project :=
      { name := name, version := "1.0.0", description := none,
        root_path := root_path, created_at := now, updated_at := now },
    global_settings := settings,
    plugins := [],
    sources := [{ source_type := .Registry, url := "https://registry.plm.dev",
                  branch := none, tag := none, token := none }],
    project_name := name,
    project_root := root_path,
    version := "1.0.0",
    settings := settings }

/-- `ProjectConfig::validate` (config.rs): first failing check wins. -/
def ProjectConfig.validate (c : ProjectConfig) : Except PluginError Unit :=
  if c.project_name.isEmpty then
    .error (.ConfigError "Project name cannot be empty")
  else if c.project_root.isEmpty then
    .error (.ConfigError "Project root cannot be empty")
  else
    match c.plugins.find? (fun kv => kv.2.name != kv.1) with
    | some kv =>
      .error (.ConfigError ("Plugin name mismatch: key '" ++ kv.1 ++ "' vs config '"
        ++ kv.2.name ++ "'"))
    | none =>
      match c.sources.find? (fun s => s.url.isEmpty) with
      | some _ => .error (.ConfigError "Plugin source URL cannot be empty")
      | none => .ok ()

/-- `ProjectConfig::add_plugin` (config.rs): insert under the config's own
name. -/
def ProjectConfig.add_plugin (c : ProjectConfig) (plugin : PluginConfig) : ProjectConfig :=
  { c with plugins := insertA c.plugins plugin.name plugin }

/-- `ProjectConfig::get_plugin` (config.rs). -/
def ProjectConfig.get_plugin (c : ProjectConfig) (plugin_name : String) :
    Option PluginConfig :=
  c.plugins.lookup plugin_name

/-- `ProjectConfig::remove_plugin` (config.rs): returns the removed entry and
the configuration without it. -/
def ProjectConfig.remove_plugin (c : ProjectConfig) (plugin_name : String) :
    Option PluginConfig × ProjectConfig :=
  (c.plugins.lookup plugin_name,
   { c with plugins := c.plugins.filter (fun kv => kv.1 != plugin_name) })

/-- `PluginConfig::new` (config.rs). -/
def PluginConfig.new (name : String) : PluginConfig :=
  { name := name, enabled := false, version := none, source := none,
    settings := [], auto_update := false }

/-- `PluginConfig::set_setting` (config.rs): `HashMap::insert`. -/
def PluginConfig.set_setting (p : PluginConfig) (key : String) (value : JValue) :
    PluginConfig :=
  { p with settings := insertA p.settings key value }

/-- `PluginConfig::get_setting` (config.rs): `HashMap::get`. -/
def PluginConfig.get_setting (p : PluginConfig) (key : String) : Option JValue :=
  p.settings.lookup key

/-- `PluginConfig::set_version` (config.rs). -/
def PluginConfig.set_version (p : PluginConfig) (version : String) : PluginConfig :=
  { p with version := some version }

/-! ## Serialization (the derived serde implementations of config.rs) -/

/-- `Option<T>` serialized: `None` is `null`, `Some` the value. -/
def encOpt (enc : α → JValue) : Option α → JValue
  | none => .null
  | some x => enc x

/-- A required struct field: looked up by name, then parsed. -/
def reqField (fields : List (String × JValue)) (k : String) (p : JValue → Option α) :
    Option α :=
  (fields.lookup k).bind p

def JValue.isNull : JValue → Bool
  | .null => true
  | _ => false

/-- An `Option` struct field: a missing field or a `null` reads as `None`. -/
def optField (fields : List (String × JValue)) (k : String) (p : JValue → Option α) :
    Option (Option α) :=
  match fields.lookup k with
  | none => some none
  | some v => if v.isNull then some none else (p v).map some

def JValue.asStr : JValue → Option String
  | .str s => some s
  | _ => none

def JValue.asBool : JValue → Option Bool
  | .bool b => some b
  | _ => none

def JValue.asNat : JValue → Option Nat
  | .num i => i.toNat'
  | _ => none

/-- Deserializing a sequence of map entries: parse each value, keep the keys. -/
def parseEntries (parse : JValue → Option α) :
    List (String × JValue) → Option (List (String × α))
  | [] => some []
  | (k, j) :: rest => do
    let v ← parse j
    let vs ← parseEntries parse rest
    some ((k, v) :: vs)

/-- Deserializing a JSON array elementwise. -/
def parseArr (parse : JValue → Option α) : List JValue → Option (List α)
  | [] => some []
  | j :: rest => do
    let x ← parse j
    let xs ← parseArr parse rest
    some (x :: xs)

def ProjectInfo.toJson (p : ProjectInfo) : JValue :=
  .obj [("name", .str p.name), ("version", .str p.version),
        ("description", encOpt JValue.str p.description),
        ("root_path", .str p.root_path),
        ("created_at", .str p.created_at),
        ("updated_at", .str p.updated_at)]

def ProjectInfo.fromJson : JValue → Option ProjectInfo
  | .obj fields => do
    let name ← reqField fields "name" JValue.asStr
    let version ← reqField fields "version" JValue.asStr
    let description ← optField fields "description" JValue.asStr
    let root_path ← reqField fields "root_path" JValue.asStr
    let created_at ← reqField fields "created_at" JValue.asStr
    let updated_at ← reqField fields "updated_at" JValue.asStr
    some { name, version, description, root_path, created_at, updated_at }
  | _ => none

def GlobalSettings.toJson (g : GlobalSettings) : JValue :=
  .obj [("cache_dir", .str g.cache_dir),
        ("registry_url", .str g.registry_url),
        ("auto_update", .bool g.auto_update),
        ("parallel_downloads", .num (Int.ofNat g.parallel_downloads)),
        ("verify_checksums", .bool g.verify_checksums),
        ("auto_discovery", .bool g.auto_discovery),
        ("validate_on_install", .bool g.validate_on_install),
        ("enable_hooks", .bool g.enable_hooks),
        ("plugin_dir", .str g.plugin_dir),
        ("log_level", .str g.log_level),
        ("download_timeout", .num (Int.ofNat g.download_timeout))]

def GlobalSettings.fromJson : JValue → Option GlobalSettings
  | .obj fields => do
    let cache_dir ← reqField fields "cache_dir" JValue.asStr
    let registry_url ← reqField fields "registry_url" JValue.asStr
    let auto_update ← reqField fields "auto_update" JValue.asBool
    let parallel_downloads ← reqField fields "parallel_downloads" JValue.asNat
    let verify_checksums ← reqField fields "verify_checksums" JValue.asBool
    let auto_discovery ← reqField fields "auto_discovery" JValue.asBool
    let validate_on_install ← reqField fields "validate_on_install" JValue.asBool
    let enable_hooks ← reqField fields "enable_hooks" JValue.asBool
    let plugin_dir ← reqField fields "plugin_dir" JValue.asStr
    let log_level ← reqField fields "log_level" JValue.asStr
    let download_timeout ← reqField fields "download_timeout" JValue.asNat
    some { cache_dir, registry_url, auto_update, parallel_downloads,
           verify_checksums, auto_discovery, validate_on_install, enable_hooks,
           plugin_dir, log_level, download_timeout }
  | _ => none

/-- `#[serde(rename_all = "lowercase")]` on the unit variants. -/
def PluginSourceType.toJson : PluginSourceType → JValue
  | .Builtin => .str "builtin"
  | .Local => .str "local"
  | .Git => .str "git"
  | .Http => .str "http"
  | .Registry => .str "registry"

def PluginSourceType.fromJson : JValue → Option PluginSourceType
  | .str "builtin" => some .Builtin
  | .str "local" => some .Local
  | .str "git" => some .Git
  | .str "http" => some .Http
  | .str "registry" => some .Registry
  | _ => none

/-- `source_type` is serialized under the key `type` (serde rename). -/
def PluginSource.toJson (s : PluginSource) : JValue :=
  .obj [("type", s.source_type.toJson), ("url", .str s.url),
        ("branch", encOpt JValue.str s.branch),
        ("tag", encOpt JValue.str s.tag),
        ("token", encOpt JValue.str s.token)]

def PluginSource.fromJson : JValue → Option PluginSource
  | .obj fields => do
    let source_type ← reqField fields "type" PluginSourceType.fromJson
    let url ← reqField fields "url" JValue.asStr
    let branch ← optField fields "branch" JValue.asStr
    let tag ← optField fields "tag" JValue.asStr
    let token ← optField fields "token" JValue.asStr
    some { source_type, url, branch, tag, token }
  | _ => none

/-- A `HashMap<String, serde_json::Value>` deserializes by inserting each
entry; the values are `Value`s already. -/
def settingsFromJson : JValue → Option (List (String × JValue))
  | .obj fields => some (ofEntries fields)
  | _ => none

def PluginConfig.toJson (p : PluginConfig) : JValue :=
  .obj [("name", .str p.name), ("enabled", .bool p.enabled),
        ("version", encOpt JValue.str p.version),
        ("source", encOpt PluginSource.toJson p.source),
        ("settings", .obj p.settings),
        ("auto_update", .bool p.auto_update)]

def PluginConfig.fromJson : JValue → Option PluginConfig
  | .obj fields => do
    let name ← reqField fields "name" JValue.asStr
    let enabled ← reqField fields "enabled" JValue.asBool
    let version ← optField fields "version" JValue.asStr
    let source ← optField fields "source" PluginSource.fromJson
    let settings ← reqField fields "settings" settingsFromJson
    let auto_update ← reqField fields "auto_update" JValue.asBool
    some { name, enabled, version, source, settings, auto_update }
  | _ => none

def pluginsMapFromJson : JValue → Option (List (String × PluginConfig))
  | .obj fields => (parseEntries PluginConfig.fromJson fields).map ofEntries
  | _ => none

def sourcesFromJson : JValue → Option (List PluginSource)
  | .arr js => parseArr PluginSource.fromJson js
  | _ => none

def ProjectConfig.toJson (c : ProjectConfig) : JValue :=
  .obj [("project", c.project.toJson),
        ("global_settings", c.global_settings.toJson),
        ("plugins", .obj (c.plugins.map (fun kv => (kv.1, kv.2.toJson)))),
        ("sources", .arr (c.sources.map PluginSource.toJson)),
        ("project_name", .str c.project_name),
        ("project_root", .str c.project_root),
        ("version", .str c.version),
        ("settings", c.settings.toJson)]

def ProjectConfig.fromJson : JValue → Option ProjectConfig
  | .obj fields => do
    let project ← reqField fields "project" ProjectInfo.fromJson
    let global_settings ← reqField fields "global_settings" GlobalSettings.fromJson
    let plugins ← reqField fields "plugins" pluginsMapFromJson
    let sources ← reqField fields "sources" sourcesFromJson
    let project_name ← reqField fields "project_name" JValue.asStr
    let project_root ← reqField fields "project_root" JValue.asStr
    let version ← reqField fields "version" JValue.asStr
    let settings ← reqField fields "settings" GlobalSettings.fromJson
    some { project, global_settings, plugins, sources, project_name,
           project_root, version, settings }
  | _ => none

/-- `ProjectConfig::save` to a path followed by `ProjectConfig::load` from
the same path: serialization then deserialization, with the text rendering
of `serde_json` and the file system treated as faithful transport of the
JSON tree. -/
def ProjectConfig.save_then_load (c : ProjectConfig) : Option ProjectConfig :=
  ProjectConfig.fromJson (ProjectConfig.toJson c)

/-! ## The plugin manager (core.rs) -/

/-- `ValidationSummary` (traits.rs). -/
structure ValidationSummary where
  valid_plugins : Nat
  invalid_plugins : Nat
  errors : List String

/-- `PluginManager` (core.rs): the registry of live adapter handles and the
held project configuration. -/
structure PluginManager where
  plugins : List (String × ArcPlugin)
  config : ProjectConfig

/-- `PluginManager::new` (core.rs); the `Utc::now()` of the default
configuration is passed in as `now`. -/
def PluginManager.new (now : DateTimeUtc) : PluginManager :=
  { plugins := [], config := ProjectConfig.default_for_project now "default" "." }

/-- `PluginManager::from_project_config` (core.rs). -/
def PluginManager.from_project_config (config : ProjectConfig) : PluginManager :=
  { plugins := [], config }

/-- `PluginManager::register_plugin_for_test` (core.rs). -/
def PluginManager.register_plugin_for_test (m : PluginManager) (name : String)
    (a : ArcPlugin) : Except PluginError Unit × PluginManager :=
  (.ok (), { m with plugins := insertA m.plugins name a })

/-- One pass of the loop body of `PluginManager::initialize` (core.rs lines
38-46): `Arc::get_mut` failure or the adapter's failure, wrapped with the
adapter's name, or the updated handle. -/
def initStep (name : String) (a : ArcPlugin) : Except PluginError ArcPlugin :=
  match a.get_mut with
  | none => .error (.PluginError ("无法获取插件 " ++ name ++ " 的可变引用"))
  | some p =>
    match p.runInitialize with
    | .error e => .error (.PluginError ("插件 " ++ name ++ " 初始化失败: " ++ errDisplay e))
    | .ok p' => .ok { a with plugin := p' }

/-- The `for` loop of `PluginManager::initialize`: aborts at the first
failing adapter (the `?` and the `return Err`), keeping the mutations made
so far; entries after the failure are untouched. -/
def initLoop : List (String × ArcPlugin) → Except PluginError Unit × List (String × ArcPlugin)
  | [] => (.ok (), [])
  | (name, a) :: rest =>
    match initStep name a with
    | .error e => (.error e, (name, a) :: rest)
    | .ok a' =>
      let r := initLoop rest
      (r.1, (name, a') :: r.2)

/-- `PluginManager::initialize` (core.rs). -/
def PluginManager.initialize (m : PluginManager) :
    Except PluginError Unit × PluginManager :=
  let r := initLoop m.plugins
  (r.1, { m with plugins := r.2 })

/-- The effect of one successful shutdown call on a handle: the adapter's
`shutdown()` either succeeds (new state kept) or fails, in which case the
failure is only logged as a warning (`eprintln!`) and the handle is kept. -/
def shutStepEntry (kv : String × ArcPlugin) : String × ArcPlugin :=
  (kv.1,
   match kv.2.plugin.runShutdown with
   | .ok p' => { kv.2 with plugin := p' }
   | .error _ => kv.2)

/-- The `for` loop of `PluginManager::shutdown` (core.rs lines 53-61): an
adapter whose `shutdown()` fails is only warned about and the loop
continues, but a failure of `Arc::get_mut` propagates through the `?` and
aborts the loop at that entry. -/
def shutdownLoop :
    List (String × ArcPlugin) → Except PluginError Unit × List (String × ArcPlugin)
  | [] => (.ok (), [])
  | (name, a) :: rest =>
    match a.get_mut with
    | none => (.error (.PluginError ("无法获取插件 " ++ name ++ " 的可变引用")),
               (name, a) :: rest)
    | some _ =>
      let r := shutdownLoop rest
      (r.1, shutStepEntry (name, a) :: r.2)

/-- `PluginManager::shutdown` (core.rs): `self.plugins.clear()` runs only
after the loop, so only when no `?` fired inside it. -/
def PluginManager.shutdown (m : PluginManager) :
    Except PluginError Unit × PluginManager :=
  match shutdownLoop m.plugins with
  | (.error e, ps) => (.error e, { m with plugins := ps })
  | (.ok _, _) => (.ok (), { m with plugins := [] })

/-- `PluginManager::get_plugin` (core.rs): `&self`, so the manager comes
back unchanged. -/
def PluginManager.get_plugin (m : PluginManager) (name : String) :
    Except PluginError ArcPlugin × PluginManager :=
  (match m.plugins.lookup name with
   | some a => .ok a
   | none => .error (.NotFound name), m)

/-- `PluginManager::list_plugins` (core.rs). -/
def PluginManager.list_plugins (m : PluginManager) : List String :=
  m.plugins.map Prod.fst

/-- `PluginManager::install_plugin` (core.rs): look up, default the version
to the sentinel "latest", delegate to the adapter. `&self`. -/
def PluginManager.install_plugin (m : PluginManager) (name : String)
    (version : Option String) (options : InstallOptions) :
    Except PluginError String × PluginManager :=
  (match ( m.get_plugin name).1 with
   | .error e => .error e
   | .ok a => a.plugin.installFn (version.getD "latest") options, m)

/-- `PluginManager::discover_plugins` (core.rs). -/
def PluginManager.discover_plugins (m : PluginManager) : Except PluginError Nat :=
  .ok m.plugins.length

/-- The metadata test of `PluginManager::validate_all_plugins` (core.rs line
120). -/
def validEntry (kv : String × ArcPlugin) : Bool :=
  !kv.2.plugin.metadata.name.isEmpty && !kv.2.plugin.metadata.version.isEmpty

/-- The error string pushed for an invalid adapter (core.rs line 124). -/
def invalidMsg (kv : String × ArcPlugin) : String :=
  "插件 " ++ kv.1 ++ " 元数据不完整"

/-- `PluginManager::validate_all_plugins` (core.rs): fold the registry into
the summary. `&self`. -/
def PluginManager.validate_all_plugins (m : PluginManager) :
    Except PluginError ValidationSummary × PluginManager :=
  (.ok (m.plugins.foldl
    (fun s kv =>
      if validEntry kv then
        { s with valid_plugins := s.valid_plugins + 1 }
      else
        { s with invalid_plugins := s.invalid_plugins + 1,
                 errors := s.errors ++ [invalidMsg kv] })
    { valid_plugins := 0, invalid_plugins := 0, errors := [] }), m)

/-- `PluginManager::add_plugin_config` (core.rs): delegates to
`ProjectConfig::add_plugin`. -/
def PluginManager.add_plugin_config (m : PluginManager) (plugin_config : PluginConfig) :
    PluginManager :=
  { m with config := m.config.add_plugin plugin_config }

/-- `PluginManager::remove_plugin_config` (core.rs). -/
def PluginManager.remove_plugin_config (m : PluginManager) (name : String) :
    PluginManager :=
  { m with config := (m.config.remove_plugin name).2 }

/-- `ProjectConfig::add_plugin` / `remove_plugin` as a single step, for
stating what any sequence of the two operations preserves. -/
inductive ConfigOp where
  | add : PluginConfig → ConfigOp
  | remove : String → ConfigOp

def applyOp (c : ProjectConfig) : ConfigOp → ProjectConfig
  | .add p => c.add_plugin p
  | .remove n => (c.remove_plugin n).2

def applyOps (c : ProjectConfig) (ops : List ConfigOp) : ProjectConfig :=
  ops.foldl applyOp c

/-- The key-equals-name invariant of the plugins map (spec section 3),
as a Boolean predicate. -/
def keyInv (c : ProjectConfig) : Bool :=
  c.plugins.all (fun kv => kv.2.name == kv.1)

/-- How many entries of the association list carry the given key. -/
def countKey (m : List (String × α)) (k : String) : Nat :=
  (m.filter (fun kv => kv.1 == k)).length

/-- What a registry entry becomes after a successful `initialize()` pass over
it: the adapter transitioned to `Active`. -/
def initOkEntry (kv : String × ArcPlugin) : String × ArcPlugin :=
  (kv.1, { kv.2 with plugin := { kv.2.plugin with status := .Active } })

/-! ## Concrete sample data, used to instantiate the theorems -/

def sampleMetadata (name version : String) : PluginMetadata :=
  { name := name, version := version, description := "", author := "",
    homepage := none, repository := none, supported_platforms := [],
    tags := [], dependencies := [], min_plm_version := none }

/-- A healthy adapter: lifecycle succeeds, install reports a path. -/
def okPlugin (name : String) : Plugin :=
  { metadata := sampleMetadata name "1.0.0", status := .Inactive,
    initError := none, shutdownError := none,
    installFn := fun v _ => .ok ("/plugins/" ++ name ++ "/" ++ v) }

/-- An adapter whose own `shutdown()` fails. -/
def failShutPlugin (name : String) : Plugin :=
  { okPlugin name with shutdownError := some (.PluginError "bye") }

/-- An adapter whose own `initialize()` fails with an IO error. -/
def failInitPlugin (name : String) : Plugin :=
  { okPlugin name with initError := some (.IoError "disk") }

def cfgDemo : ProjectConfig :=
  ProjectConfig.default_for_project "2024-01-01T00:00:00Z" "demo" "/tmp"

/-- A registry holding one adapter whose handle is also held elsewhere. -/
def mgrSharedGo : PluginManager :=
  { plugins := [("go", { plugin := okPlugin "go", shared := true })], config := cfgDemo }

/-- A registry of two exclusively held adapters, the second of which fails
its own `shutdown()`. -/
def mgrTwo : PluginManager :=
  { plugins := [("go", { plugin := okPlugin "go", shared := false }),
                ("rust", { plugin := failShutPlugin "rust", shared := false })],
    config := cfgDemo }

/-- A registry where the second of three adapters fails `initialize()`. -/
def mgrInitFail : PluginManager :=
  { plugins := [("go", { plugin := okPlugin "go", shared := false }),
                ("py", { plugin := failInitPlugin "py", shared := false }),
                ("rust", { plugin := okPlugin "rust", shared := false })],
    config := cfgDemo }

def mgrEmpty : PluginManager :=
  PluginManager.from_project_config cfgDemo

def mgrNode : PluginManager :=
  { plugins := [("node", { plugin := okPlugin "node", shared := false })],
    config := cfgDemo }

def pcfgSample : PluginConfig :=
  { PluginConfig.new "py" with settings := [("cache", .str "~/.cache")] }

/-- A configuration with one plugin carrying boolean, number and string
settings, for instantiating the save/load round-trip. -/
def cfgRich : ProjectConfig :=
  { cfgDemo with
    plugins := [("node",
      { name := "node", enabled := true, version := some "1.5.0",
        source := some { source_type := .Git, url := "https://github.com/u/r.git",
                         branch := some "main", tag := none, token := none },
        settings := [("debug", .bool true), ("timeout", .num 30),
                     ("label", .str "x")],
        auto_update := false })] }

def opsSample : List ConfigOp :=
  [.add (PluginConfig.new "go"), .add pcfgSample, .remove "go"]

/-! ## Association list lemmas -/

theorem lookup_insertA_self (m : List (String × α)) (k : String) (v : α) :
    (insertA m k v).lookup k = some v := by
  induction m with
  | nil => simp [insertA, List.lookup]
  | cons kv rest ih =>
    obtain ⟨k', v'⟩ := kv
    by_cases h : k' = k
    · subst h
      simp [insertA, List.lookup]
    · have hb : (k' == k) = false := beq_eq_false_iff_ne.mpr h
      have hb' : (k == k') = false := beq_eq_false_iff_ne.mpr (Ne.symm h)
      simp [insertA, List.lookup, hb, hb', ih]

theorem lookup_insertA_ne (m : List (String × α)) (k k' : String) (v : α)
    (h : k' ≠ k) : (insertA m k v).lookup k' = m.lookup k' := by
  have hb' : (k' == k) = false := beq_eq_false_iff_ne.mpr h
  induction m with
  | nil => simp [insertA, List.lookup, hb']
  | cons kv rest ih =>
    obtain ⟨ka, va⟩ := kv
    by_cases hk : ka = k
    · subst hk
      simp [insertA, List.lookup, hb']
    · have hbk : (ka == k) = false := beq_eq_false_iff_ne.mpr hk
      by_cases hk2 : k' = ka
      · subst hk2
        simp [insertA, List.lookup, hbk]
      · have hb2 : (k' == ka) = false := beq_eq_false_iff_ne.mpr hk2
        simp [insertA, List.lookup, hbk, hb2, ih]

theorem countKey_eq_zero_of_not_mem (m : List (String × α)) (k : String)
    (h : k ∉ m.map Prod.fst) : countKey m k = 0 := by
  induction m with
  | nil => simp [countKey]
  | cons kv rest ih =>
    rw [List.map_cons, List.mem_cons] at h
    push_neg at h
    have hb : (kv.1 == k) = false := beq_eq_false_iff_ne.mpr (fun hk => h.1 hk.symm)
    have ih2 := ih h.2
    unfold countKey at ih2 ⊢
    simp [List.filter_cons, hb, ih2]

theorem countKey_insertA (m : List (String × α)) (k : String) (v : α)
    (h : NodupKeys m) : countKey (insertA m k v) k = 1 := by
  induction m with
  | nil => simp [insertA, countKey, List.filter_cons]
  | cons kv rest ih =>
    obtain ⟨k', v'⟩ := kv
    have h' : k' ∉ rest.map Prod.fst ∧ (rest.map Prod.fst).Nodup := by
      have h2 := h
      unfold NodupKeys at h2
      rw [List.map_cons, List.nodup_cons] at h2
      exact h2
    by_cases hk : k' = k
    · subst hk
      have h0 : countKey rest k' = 0 := countKey_eq_zero_of_not_mem rest k' h'.1
      unfold countKey at h0 ⊢
      simp [insertA, List.filter_cons, h0]
    · have hb : (k' == k) = false := beq_eq_false_iff_ne.mpr hk
      have ih2 := ih h'.2
      unfold countKey at ih2 ⊢
      simp [insertA, List.filter_cons, hb, ih2]

theorem map_fst_insertA (m : List (String × α)) (k : String) (v : α) :
    (insertA m k v).map Prod.fst =
      if k ∈ m.map Prod.fst then m.map Prod.fst else m.map Prod.fst ++ [k] := by
  induction m with
  | nil => simp [insertA]
  | cons kv rest ih =>
    obtain ⟨k', v'⟩ := kv
    by_cases hk : k' = k
    · subst hk
      simp [insertA]
    · have hb : (k' == k) = false := beq_eq_false_iff_ne.mpr hk
      have hne : ¬ k = k' := fun h2 => hk h2.symm
      by_cases hmem : k ∈ rest.map Prod.fst
      · simp [insertA, hb, ih, hmem, hne, List.mem_cons]
      · simp [insertA, hb, ih, hmem, hne, List.mem_cons]

theorem nodupKeys_insertA (m : List (String × α)) (k : String) (v : α)
    (h : NodupKeys m) : NodupKeys (insertA m k v) := by
  unfold NodupKeys at h ⊢
  rw [map_fst_insertA]
  by_cases hmem : k ∈ m.map Prod.fst
  · rw [if_pos hmem]
    exact h
  · rw [if_neg hmem]
    rw [List.nodup_append]
    refine ⟨h, List.nodup_singleton k, ?_⟩
    intro a ha hb2
    rw [List.mem_singleton] at hb2
    subst hb2
    exact hmem ha

theorem insertA_append_of_not_mem (m : List (String × α)) (k : String) (v : α)
    (h : k ∉ m.map Prod.fst) : insertA m k v = m ++ [(k, v)] := by
  induction m with
  | nil => simp [insertA]
  | cons kv rest ih =>
    obtain ⟨k', v'⟩ := kv
    rw [List.map_cons, List.mem_cons] at h
    push_neg at h
    have hb : (k' == k) = false := beq_eq_false_iff_ne.mpr (fun h2 => h.1 h2.symm)
    simp [insertA, hb, ih h.2]

/-! ## C7: the default project configuration -/

/-- C7: `ProjectConfig::default_for_project(name, root)` yields
`project_name == name`, `project_root == root`, an empty plugins map, a
sources list of exactly one registry-type entry, and legacy fields
`project_name`/`project_root`/`version` mirroring `project.name`/
`project.root_path`/`project.version`. -/
theorem default_for_project_spec (now name root_path : String) :
    (ProjectConfig.default_for_project now name root_path).project_name = name ∧
    (ProjectConfig.default_for_project now name root_path).project_root = root_path ∧
    (ProjectConfig.default_for_project now name root_path).plugins = [] ∧
    (ProjectConfig.default_for_project now name root_path).sources =
      [{ source_type := .Registry, url := "https://registry.plm.dev",
         branch := none, tag := none, token := none }] ∧
    (ProjectConfig.default_for_project now name root_path).project_name =
      (ProjectConfig.default_for_project now name root_path).project.name ∧
    (ProjectConfig.default_for_project now name root_path).project_root =
      (ProjectConfig.default_for_project now name root_path).project.root_path ∧
    (ProjectConfig.default_for_project now name root_path).version =
      (ProjectConfig.default_for_project now name root_path).project.version :=
  ⟨rfl, rfl, rfl, rfl, rfl, rfl, rfl⟩

/-! ## C4: lookups of an absent name -/

/-- C4: for a name absent from the registry, `get_plugin` and
`install_plugin` both fail with `NotFound` carrying that name, and (being
`&self` methods, embedded state-passing) return the manager unchanged:
neither the registry nor the held configuration is modified. -/
theorem missing_plugin_not_found (m : PluginManager) (name : String)
    (version : Option String) (options : InstallOptions)
    (h : m.plugins.lookup name = none) :
    m.get_plugin name = (.error (.NotFound name), m) ∧
    m.install_plugin name version options = (.error (.NotFound name), m) := by
  constructor
  · unfold PluginManager.get_plugin
    rw [h]
  · unfold PluginManager.install_plugin PluginManager.get_plugin
    rw [h]

/-- Witness for C4 at the empty registry and the name "missing". -/
theorem missing_plugin_not_found_witness :
    mgrEmpty.get_plugin "missing" = (.error (.NotFound "missing"), mgrEmpty) ∧
    mgrEmpty.install_plugin "missing" (some "1.0.0") InstallOptions.new =
      (.error (.NotFound "missing"), mgrEmpty) :=
  missing_plugin_not_found mgrEmpty "missing" (some "1.0.0") InstallOptions.new rfl

/-! ## C9: installation delegates to the adapter -/

/-- C9: when the name is registered, `install_plugin` delegates to that
adapter's `install`, passing the supplied version when there is one and the
sentinel "latest" when the version is omitted (`version.getD "latest"`
covers both cases), and returns the adapter's result unchanged; the manager
(`&self`) comes back unchanged. -/
theorem install_plugin_delegates (m : PluginManager) (name : String)
    (a : ArcPlugin) (version : Option String) (options : InstallOptions)
    (h : m.plugins.lookup name = some a) :
    m.install_plugin name version options =
      (a.plugin.installFn (version.getD "latest") options, m) := by
  unfold PluginManager.install_plugin PluginManager.get_plugin
  rw [h]

/-- Witness for C9: the registered "node" adapter is called with the
sentinel "latest" when the version is omitted, and its result comes back
unchanged. -/
theorem install_plugin_delegates_witness :
    mgrNode.install_plugin "node" none InstallOptions.new =
      (.ok "/plugins/node/latest", mgrNode) :=
  install_plugin_delegates mgrNode "node"
    { plugin := okPlugin "node", shared := false } none InstallOptions.new rfl

/-! ## C5: validation summary -/

theorem validate_foldl (l : List (String × ArcPlugin)) (s : ValidationSummary) :
    l.foldl
      (fun s kv =>
        if validEntry kv then
          { s with valid_plugins := s.valid_plugins + 1 }
        else
          { s with invalid_plugins := s.invalid_plugins + 1,
                   errors := s.errors ++ [invalidMsg kv] })
      s =
    { valid_plugins := s.valid_plugins + (l.filter validEntry).length,
      invalid_plugins := s.invalid_plugins + (l.filter (fun kv => !validEntry kv)).length,
      errors := s.errors ++ (l.filter (fun kv => !validEntry kv)).map invalidMsg } := by
  induction l generalizing s with
  | nil => simp
  | cons kv rest ih =>
    by_cases h : validEntry kv
    · simp only [List.foldl_cons, h, if_true, ih, List.filter_cons, Bool.not_true,
        Bool.false_eq_true]
      simp [ValidationSummary.mk.injEq]
      omega
    · have hb : validEntry kv = false := by simpa using h
      simp only [List.foldl_cons, hb, Bool.false_eq_true, if_false, ih,
        List.filter_cons, Bool.not_false]
      simp [ValidationSummary.mk.injEq, hb]
      omega

/-- C5: `validate_all_plugins` classifies an adapter as valid exactly when
its metadata has non-empty name and version (`validEntry`), counts the valid
and the invalid adapters, pushes one error string per invalid adapter (in
registry order), leaves the manager unchanged; and on a registry whose
adapters are all valid it reports `(k, 0, [])` with `k` the registry size. -/
theorem validate_all_plugins_spec (m : PluginManager) :
    m.validate_all_plugins =
      (.ok { valid_plugins := (m.plugins.filter validEntry).length,
             invalid_plugins := (m.plugins.filter (fun kv => !validEntry kv)).length,
             errors := (m.plugins.filter (fun kv => !validEntry kv)).map invalidMsg },
       m) ∧
    ((∀ kv ∈ m.plugins, validEntry kv = true) →
      m.validate_all_plugins =
        (.ok { valid_plugins := m.plugins.length, invalid_plugins := 0, errors := [] },
         m)) := by
  have hmain : m.validate_all_plugins =
      (.ok { valid_plugins := (m.plugins.filter validEntry).length,
             invalid_plugins := (m.plugins.filter (fun kv => !validEntry kv)).length,
             errors := (m.plugins.filter (fun kv => !validEntry kv)).map invalidMsg },
       m) := by
    unfold PluginManager.validate_all_plugins
    rw [validate_foldl]
    simp
  refine ⟨hmain, fun hall => ?_⟩
  have h1 : m.plugins.filter validEntry = m.plugins := List.filter_eq_self.mpr hall
  have h2 : m.plugins.filter (fun kv => !validEntry kv) = [] := by
    rw [List.filter_eq_nil_iff]
    intro kv hkv
    simp [hall kv hkv]
  rw [hmain, h1, h2]
  simp

/-! ## C8: set_setting is idempotent -/

/-- C8: on a well-formed settings map, setting the same `(key, v)` twice
leaves `get_setting key = some v`, the map holds exactly one entry for that
key, and every other key reads as before. -/
theorem set_setting_idempotent (p : PluginConfig) (key : String) (v : JValue)
    (h : NodupKeys p.settings) :
    ((p.set_setting key v).set_setting key v).get_setting key = some v ∧
    countKey ((p.set_setting key v).set_setting key v).settings key = 1 ∧
    ∀ k', k' ≠ key →
      ((p.set_setting key v).set_setting key v).get_setting k' = p.get_setting k' := by
  unfold PluginConfig.set_setting PluginConfig.get_setting
  refine ⟨lookup_insertA_self _ _ _,
    countKey_insertA _ _ _ (nodupKeys_insertA _ _ _ h), fun k' hk => ?_⟩
  rw [lookup_insertA_ne _ _ _ _ hk, lookup_insertA_ne _ _ _ _ hk]

/-- Witness for C8 on a concrete plugin configuration: "debug" reads back,
is stored once, and the untouched "cache" setting is unchanged. -/
theorem set_setting_idempotent_witness :
    ((pcfgSample.set_setting "debug" (.bool true)).set_setting "debug"
      (.bool true)).get_setting "debug" = some (.bool true) ∧
    countKey ((pcfgSample.set_setting "debug" (.bool true)).set_setting "debug"
      (.bool true)).settings "debug" = 1 :=
  ⟨(set_setting_idempotent pcfgSample "debug" (.bool true) (by decide)).1,
   (set_setting_idempotent pcfgSample "debug" (.bool true) (by decide)).2.1⟩

/-! ## C10: add/remove preserve the key-equals-name invariant -/

theorem mem_insertA (m : List (String × α)) (k : String) (v : α)
    (x : String × α) (hx : x ∈ insertA m k v) :
    x ∈ m ∨ (x.1 = k ∧ x.2 = v) := by
  induction m with
  | nil =>
    simp [insertA] at hx
    right
    rw [hx]
    exact ⟨rfl, rfl⟩
  | cons kv rest ih =>
    obtain ⟨k', v'⟩ := kv
    by_cases hk : k' = k
    · have hb : (k' == k) = true := beq_iff_eq.mpr hk
      rw [insertA] at hx
      simp only [hb, if_true, List.mem_cons] at hx
      rcases hx with h1 | h1
      · right
        rw [h1]
        exact ⟨hk, rfl⟩
      · left
        exact List.mem_cons_of_mem _ h1
    · have hb : (k' == k) = false := beq_eq_false_iff_ne.mpr hk
      rw [insertA] at hx
      simp only [hb, Bool.false_eq_true, if_false, List.mem_cons] at hx
      rcases hx with h1 | h1
      · left
        rw [h1]
        exact List.mem_cons_self _ _
      · rcases ih h1 with h2 | h2
        · left
          exact List.mem_cons_of_mem _ h2
        · right
          exact h2

theorem keyInv_insert_self (plugins : List (String × PluginConfig))
    (p : PluginConfig) (h : plugins.all (fun kv => kv.2.name == kv.1) = true) :
    (insertA plugins p.name p).all (fun kv => kv.2.name == kv.1) = true := by
  rw [List.all_eq_true] at h ⊢
  intro x hx
  rcases mem_insertA _ _ _ _ hx with h1 | h1
  · exact h x h1
  · obtain ⟨hx1, hx2⟩ := h1
    rw [beq_iff_eq, hx2, hx1]

theorem all_filter_of_all (l : List (String × PluginConfig))
    (P : String × PluginConfig → Bool) (q : String × PluginConfig → Bool)
    (h : l.all P = true) : (l.filter q).all P = true := by
  rw [List.all_eq_true] at h ⊢
  exact fun a ha => h a (List.mem_of_mem_filter ha)

/-- C10: `add_plugin` stores a configuration under the key equal to its own
`name` (looking that key up finds it), `add_plugin_config` delegates to it,
and any sequence of `add_plugin`/`remove_plugin` steps preserves the
key-equals-name invariant of the plugins map. -/
theorem add_remove_preserve_key_inv :
    (∀ (c : ProjectConfig) (p : PluginConfig),
        (c.add_plugin p).plugins.lookup p.name = some p) ∧
    (∀ (m : PluginManager) (p : PluginConfig),
        (m.add_plugin_config p).config = m.config.add_plugin p) ∧
    (∀ (c : ProjectConfig) (ops : List ConfigOp),
        keyInv c = true → keyInv (applyOps c ops) = true) := by
  refine ⟨fun c p => lookup_insertA_self _ _ _, fun m p => rfl, fun c ops => ?_⟩
  induction ops generalizing c with
  | nil => exact fun h => h
  | cons op rest ih =>
    intro h
    show keyInv (applyOps (applyOp c op) rest) = true
    apply ih
    cases op with
    | add p =>
      unfold applyOp keyInv ProjectConfig.add_plugin
      unfold keyInv at h
      exact keyInv_insert_self _ _ h
    | remove n =>
      unfold applyOp keyInv ProjectConfig.remove_plugin
      unfold keyInv at h
      exact all_filter_of_all _ _ _ h

/-- Witness for C10: the invariant survives a concrete add/add/remove
sequence starting from a configuration that satisfies it. -/
theorem add_remove_preserve_key_inv_witness :
    keyInv (applyOps cfgRich opsSample) = true :=
  add_remove_preserve_key_inv.2.2 cfgRich opsSample (by decide)

/-! ## C6: configuration validation -/

/-- C6: `ProjectConfig::validate` succeeds exactly when the project name and
root are non-empty, every plugins-map entry's config name equals its key,
and every source URL is non-empty; and whenever it fails, the failure is a
`ConfigError`. -/
theorem config_validate_spec (c : ProjectConfig) :
    (c.validate = .ok () ↔
      (c.project_name.isEmpty = false ∧ c.project_root.isEmpty = false ∧
       (∀ kv ∈ c.plugins, kv.2.name = kv.1) ∧
       ∀ s ∈ c.sources, s.url.isEmpty = false)) ∧
    (c.validate = .ok () ∨ ∃ msg, c.validate = .error (.ConfigError msg)) := by
  unfold ProjectConfig.validate
  by_cases h1 : c.project_name.isEmpty = true
  · rw [if_pos h1]
    exact ⟨⟨fun h => by simp at h, fun h => by rw [h.1] at h1; simp at h1⟩,
      Or.inr ⟨_, rfl⟩⟩
  · rw [if_neg h1]
    replace h1 : c.project_name.isEmpty = false := by simpa using h1
    by_cases h2 : c.project_root.isEmpty = true
    · rw [if_pos h2]
      exact ⟨⟨fun h => by simp at h, fun h => by rw [h.2.1] at h2; simp at h2⟩,
        Or.inr ⟨_, rfl⟩⟩
    · rw [if_neg h2]
      replace h2 : c.project_root.isEmpty = false := by simpa using h2
      cases hf : c.plugins.find? (fun kv => kv.2.name != kv.1) with
      | some kv =>
        have hmem := List.mem_of_find?_eq_some hf
        have hne : kv.2.name ≠ kv.1 := by
          have := List.find?_some hf
          simpa [bne_iff_ne] using this
        exact ⟨⟨fun h => by simp at h, fun h => absurd (h.2.2.1 kv hmem) hne⟩,
          Or.inr ⟨_, rfl⟩⟩
      | none =>
        have hall : ∀ kv ∈ c.plugins, kv.2.name = kv.1 := by
          intro kv hkv
          have := List.find?_eq_none.mp hf kv hkv
          simpa [bne_iff_ne] using this
        cases hs : c.sources.find? (fun s => s.url.isEmpty) with
        | some s =>
          have hmem := List.mem_of_find?_eq_some hs
          have hse : s.url.isEmpty = true := by
            have := List.find?_some hs
            simpa using this
          exact ⟨⟨fun h => by simp at h,
            fun h => by rw [h.2.2.2 s hmem] at hse; simp at hse⟩,
            Or.inr ⟨_, rfl⟩⟩
        | none =>
          have hall2 : ∀ s ∈ c.sources, s.url.isEmpty = false := by
            intro s hsm
            have := List.find?_eq_none.mp hs s hsm
            simpa using this
          exact ⟨⟨fun _ => ⟨h1, h2, hall, hall2⟩, fun _ => rfl⟩, Or.inl rfl⟩

/-! ## C2: initialize is fail-fast -/

theorem initStep_ok (name : String) (a : ArcPlugin) (h1 : a.shared = false)
    (h2 : a.plugin.initError = none) :
    initStep name a = .ok { a with plugin := { a.plugin with status := .Active } } := by
  simp [initStep, ArcPlugin.get_mut, Plugin.runInitialize, h1, h2]

theorem initLoop_append (pre rest : List (String × ArcPlugin))
    (h : ∀ kv ∈ pre, kv.2.shared = false ∧ kv.2.plugin.initError = none) :
    initLoop (pre ++ rest) =
      ((initLoop rest).1, pre.map initOkEntry ++ (initLoop rest).2) := by
  induction pre with
  | nil => simp
  | cons kv pre' ih =>
    obtain ⟨name, a⟩ := kv
    have hh := h (name, a) (List.mem_cons_self _ _)
    have hstep := initStep_ok name a hh.1 hh.2
    simp only [List.cons_append, initLoop, hstep, List.append_eq]
    rw [ih (fun kv hkv => h kv (List.mem_cons_of_mem _ hkv))]
    simp [initOkEntry]

theorem initLoop_ok_iff (l : List (String × ArcPlugin)) :
    (initLoop l).1 = .ok () ↔
      ∀ kv ∈ l, kv.2.shared = false ∧ kv.2.plugin.initError = none := by
  induction l with
  | nil => simp [initLoop]
  | cons kv rest ih =>
    obtain ⟨name, a⟩ := kv
    by_cases h1 : a.shared = true
    · have hstep : initStep name a =
          .error (.PluginError ("无法获取插件 " ++ name ++ " 的可变引用")) := by
        simp [initStep, ArcPlugin.get_mut, h1]
      simp only [initLoop, hstep]
      constructor
      · intro h
        simp at h
      · intro h
        have := (h (name, a) (List.mem_cons_self _ _)).1
        rw [h1] at this
        cases this
    · have h1' : a.shared = false := by simpa using h1
      cases h2 : a.plugin.initError with
      | some e =>
        have hstep : initStep name a =
            .error (.PluginError ("插件 " ++ name ++ " 初始化失败: " ++ errDisplay e)) := by
          simp [initStep, ArcPlugin.get_mut, Plugin.runInitialize, h1', h2]
        simp only [initLoop, hstep]
        constructor
        · intro h
          simp at h
        · intro h
          have := (h (name, a) (List.mem_cons_self _ _)).2
          rw [h2] at this
          cases this
      | none =>
        have hstep := initStep_ok name a h1' h2
        simp only [initLoop, hstep]
        constructor
        · intro h kv hkv
          rcases List.mem_cons.mp hkv with hE | hmem
          · rw [hE]
            exact ⟨h1', h2⟩
          · exact (ih.mp h) kv hmem
        · intro h
          exact ih.mpr (fun kv hkv => h kv (List.mem_cons_of_mem _ hkv))

/-- C2: `initialize()` is fail-fast. If the registry splits as
`pre ++ (name, a) :: post` where every adapter of `pre` succeeds and the
step on `(name, a)` fails — because exclusive access cannot be obtained or
the adapter's own `initialize()` fails, `err` being the `PluginError`
wrapping the adapter name built by `initStep` — then the whole call returns
exactly that first error, the adapters of `pre` keep their initialized
state (no rollback), and the entries from the failure on are untouched.
Moreover the call returns `Ok` precisely when every registered adapter is
exclusively held and initializes successfully. -/
theorem initialize_fail_fast :
    (∀ (m : PluginManager) (pre post : List (String × ArcPlugin)) (name : String)
        (a : ArcPlugin) (err : PluginError),
      m.plugins = pre ++ (name, a) :: post →
      (∀ kv ∈ pre, kv.2.shared = false ∧ kv.2.plugin.initError = none) →
      initStep name a = .error err →
      m.initialize =
        (.error err,
         { m with plugins := pre.map initOkEntry ++ (name, a) :: post })) ∧
    (∀ m : PluginManager,
      ( m.initialize).1 = .ok () ↔
        ∀ kv ∈ m.plugins, kv.2.shared = false ∧ kv.2.plugin.initError = none) := by
  constructor
  · intro m pre post name a err hsplit hpre hfail
    unfold PluginManager.initialize
    rw [hsplit, initLoop_append pre ((name, a) :: post) hpre]
    simp only [initLoop, hfail]
  · intro m
    unfold PluginManager.initialize
    exact initLoop_ok_iff m.plugins

/-- Witness for C2: in a registry go/py/rust where "py" fails its own
`initialize()`, the whole call fails with the wrapped first error, "go"
stays initialized and "rust" is untouched. -/
theorem initialize_fail_fast_witness :
    mgrInitFail.initialize =
      (.error (.PluginError "插件 py 初始化失败: IO error: disk"),
       { mgrInitFail with plugins :=
          [initOkEntry ("go", { plugin := okPlugin "go", shared := false }),
           ("py", { plugin := failInitPlugin "py", shared := false }),
           ("rust", { plugin := okPlugin "rust", shared := false })] }) :=
  initialize_fail_fast.1 mgrInitFail
    [("go", { plugin := okPlugin "go", shared := false })]
    [("rust", { plugin := okPlugin "rust", shared := false })]
    "py" { plugin := failInitPlugin "py", shared := false }
    (.PluginError "插件 py 初始化失败: IO error: disk") rfl
    (by
      intro kv hkv
      rw [List.mem_singleton] at hkv
      subst hkv
      exact ⟨rfl, rfl⟩)
    rfl

/-! ## C1: shutdown is best-effort for adapter failures, but aborts without
clearing when exclusive access fails -/

theorem shutdownLoop_all_ok (l : List (String × ArcPlugin))
    (h : ∀ kv ∈ l, kv.2.shared = false) :
    shutdownLoop l = (.ok (), l.map shutStepEntry) := by
  induction l with
  | nil => simp [shutdownLoop]
  | cons kv rest ih =>
    obtain ⟨name, a⟩ := kv
    have h1 : a.shared = false := h (name, a) (List.mem_cons_self _ _)
    have hgm : a.get_mut = some a.plugin := by simp [ArcPlugin.get_mut, h1]
    simp only [shutdownLoop, hgm]
    rw [ih (fun kv hkv => h kv (List.mem_cons_of_mem _ hkv))]
    simp

theorem shutdownLoop_abort (pre post : List (String × ArcPlugin)) (name : String)
    (a : ArcPlugin) (hpre : ∀ kv ∈ pre, kv.2.shared = false) (ha : a.shared = true) :
    shutdownLoop (pre ++ (name, a) :: post) =
      (.error (.PluginError ("无法获取插件 " ++ name ++ " 的可变引用")),
       pre.map shutStepEntry ++ (name, a) :: post) := by
  induction pre with
  | nil =>
    have hgm : a.get_mut = none := by simp [ArcPlugin.get_mut, ha]
    simp [shutdownLoop, hgm]
  | cons kv pre' ih =>
    obtain ⟨n', a'⟩ := kv
    have h1 : a'.shared = false := hpre (n', a') (List.mem_cons_self _ _)
    have hgm : a'.get_mut = some a'.plugin := by simp [ArcPlugin.get_mut, h1]
    simp only [List.cons_append, shutdownLoop, hgm, List.append_eq]
    rw [ih (fun kv hkv => hpre kv (List.mem_cons_of_mem _ hkv))]
    simp

/-- C1 counterexample: a registry holding one adapter whose handle is also
held elsewhere. `shutdown()` returns the exclusive-access `PluginError`
instead of warning and continuing, and the registry is NOT cleared (it still
has its one entry), refuting "the registry is cleared unconditionally, even
if … exclusive access to some adapter handle could not be obtained". -/
theorem shutdown_not_cleared_counterexample :
    mgrSharedGo.shutdown =
      (.error (.PluginError "无法获取插件 go 的可变引用"), mgrSharedGo) ∧
    ( mgrSharedGo.shutdown).2.plugins.length = 1 :=
  ⟨rfl, rfl⟩

/-- C1 amended: for every registry state in which every adapter handle is
exclusively held, `shutdown()` invokes the adapter's `shutdown()` on every
entry, a failure of one adapter's shutdown is only logged as a warning and
does not abort the loop, and the registry is cleared unconditionally even if
some adapter shutdowns failed. But when exclusive access to some handle
cannot be obtained, the call aborts at the first such entry with a
`PluginError` and the registry is NOT cleared: the earlier entries keep
their shut-down adapters, the rest is untouched. -/
theorem shutdown_best_effort :
    (∀ m : PluginManager, (∀ kv ∈ m.plugins, kv.2.shared = false) →
      m.shutdown = (.ok (), { m with plugins := [] })) ∧
    (∀ (m : PluginManager) (pre post : List (String × ArcPlugin)) (name : String)
        (a : ArcPlugin),
      m.plugins = pre ++ (name, a) :: post →
      (∀ kv ∈ pre, kv.2.shared = false) →
      a.shared = true →
      m.shutdown =
        (.error (.PluginError ("无法获取插件 " ++ name ++ " 的可变引用")),
         { m with plugins := pre.map shutStepEntry ++ (name, a) :: post })) := by
  constructor
  · intro m h
    unfold PluginManager.shutdown
    rw [shutdownLoop_all_ok m.plugins h]
  · intro m pre post name a hsplit hpre ha
    unfold PluginManager.shutdown
    rw [hsplit, shutdownLoop_abort pre post name a hpre ha]

/-- Witness for C1 (amended): a registry of two exclusively held adapters
where "rust" fails its own `shutdown()` still ends with `Ok` and an empty
registry — the failure was only a warning. -/
theorem shutdown_best_effort_witness :
    mgrTwo.shutdown = (.ok (), { mgrTwo with plugins := [] }) :=
  shutdown_best_effort.1 mgrTwo (by
    intro kv hkv
    rcases List.mem_cons.mp hkv with h | h
    · rw [h]
    · rw [List.mem_singleton] at h
      rw [h])

/-! ## C3: save followed by load is the identity on well-formed configs -/

theorem foldl_insertA_acc (es acc : List (String × α))
    (hnd : (acc.map Prod.fst ++ es.map Prod.fst).Nodup) :
    es.foldl (fun m kv => insertA m kv.1 kv.2) acc = acc ++ es := by
  induction es generalizing acc with
  | nil => simp
  | cons kv rest ih =>
    obtain ⟨k, v⟩ := kv
    have hk_not_acc : k ∉ acc.map Prod.fst := by
      rw [List.map_cons, List.nodup_append] at hnd
      intro hmem
      exact hnd.2.2 hmem (List.mem_cons_self _ _)
    have hnd' : ((acc ++ [(k, v)]).map Prod.fst ++ rest.map Prod.fst).Nodup := by
      rw [List.map_append, List.append_assoc]
      simpa using hnd
    rw [List.foldl_cons, insertA_append_of_not_mem acc k v hk_not_acc, ih _ hnd']
    simp

theorem ofEntries_eq_self (es : List (String × α)) (h : NodupKeys es) :
    ofEntries es = es := by
  unfold ofEntries
  have := foldl_insertA_acc es [] (by simpa [NodupKeys] using h)
  simpa using this

theorem parseEntries_encode (enc : α → JValue) (parse : JValue → Option α)
    (es : List (String × α)) (h : ∀ kv ∈ es, parse (enc kv.2) = some kv.2) :
    parseEntries parse (es.map (fun kv => (kv.1, enc kv.2))) = some es := by
  induction es with
  | nil => simp [parseEntries]
  | cons kv rest ih =>
    obtain ⟨k, v⟩ := kv
    have h1 := h (k, v) (List.mem_cons_self _ _)
    have h2 := ih (fun kv hkv => h kv (List.mem_cons_of_mem _ hkv))
    simp [parseEntries, h1, h2]

theorem parseArr_encode (enc : α → JValue) (parse : JValue → Option α)
    (l : List α) (h : ∀ x ∈ l, parse (enc x) = some x) :
    parseArr parse (l.map enc) = some l := by
  induction l with
  | nil => simp [parseArr]
  | cons x rest ih =>
    have h1 := h x (List.mem_cons_self _ _)
    have h2 := ih (fun x hx => h x (List.mem_cons_of_mem _ hx))
    simp [parseArr, h1, h2]

theorem projectInfo_roundtrip (p : ProjectInfo) :
    ProjectInfo.fromJson (ProjectInfo.toJson p) = some p := by
  obtain ⟨n, v, d, r, ca, ua⟩ := p
  cases d <;> rfl

theorem globalSettings_roundtrip (g : GlobalSettings) :
    GlobalSettings.fromJson (GlobalSettings.toJson g) = some g := by
  obtain ⟨cd, ru, au, pd, vc, ad, vi, eh, pdir, ll, dt⟩ := g
  rfl

theorem pluginSourceType_roundtrip (t : PluginSourceType) :
    PluginSourceType.fromJson (PluginSourceType.toJson t) = some t := by
  cases t <;> rfl

theorem pluginSource_roundtrip (s : PluginSource) :
    PluginSource.fromJson (PluginSource.toJson s) = some s := by
  obtain ⟨st, u, b, t, tk⟩ := s
  cases st <;> cases b <;> cases t <;> cases tk <;> rfl

theorem optField_str (fields : List (String × JValue)) (k : String)
    (o : Option String) (hl : fields.lookup k = some (encOpt JValue.str o)) :
    optField fields k JValue.asStr = some o := by
  cases o with
  | none => simp [optField, hl, encOpt, JValue.isNull]
  | some s => simp [optField, hl, encOpt, JValue.isNull, JValue.asStr]

theorem optField_source (fields : List (String × JValue)) (k : String)
    (o : Option PluginSource) (hl : fields.lookup k = some (encOpt PluginSource.toJson o)) :
    optField fields k PluginSource.fromJson = some o := by
  cases o with
  | none => simp [optField, hl, encOpt, JValue.isNull]
  | some s =>
    have hn : (PluginSource.toJson s).isNull = false := by
      simp [PluginSource.toJson, JValue.isNull]
    simp [optField, hl, encOpt, hn, pluginSource_roundtrip s]

theorem pluginConfig_roundtrip (p : PluginConfig) (h : NodupKeys p.settings) :
    PluginConfig.fromJson (PluginConfig.toJson p) = some p := by
  obtain ⟨n, en, ver, src, st, au⟩ := p
  have hver : optField [("name", JValue.str n), ("enabled", JValue.bool en),
      ("version", encOpt JValue.str ver), ("source", encOpt PluginSource.toJson src),
      ("settings", JValue.obj st), ("auto_update", JValue.bool au)]
      "version" JValue.asStr = some ver :=
    optField_str _ _ _ (by rfl)
  have hsrc : optField [("name", JValue.str n), ("enabled", JValue.bool en),
      ("version", encOpt JValue.str ver), ("source", encOpt PluginSource.toJson src),
      ("settings", JValue.obj st), ("auto_update", JValue.bool au)]
      "source" PluginSource.fromJson = some src :=
    optField_source _ _ _ (by rfl)
  have hst : NodupKeys st := h
  simp [PluginConfig.toJson, PluginConfig.fromJson, reqField, hver, hsrc,
    settingsFromJson, ofEntries_eq_self st hst, List.lookup, JValue.asStr,
    JValue.asBool]

theorem pluginsMap_roundtrip (plugins : List (String × PluginConfig))
    (h1 : NodupKeys plugins) (h2 : ∀ kv ∈ plugins, NodupKeys kv.2.settings) :
    pluginsMapFromJson (.obj (plugins.map (fun kv => (kv.1, kv.2.toJson)))) =
      some plugins := by
  show (parseEntries PluginConfig.fromJson
      (plugins.map (fun kv => (kv.1, kv.2.toJson)))).map ofEntries = some plugins
  rw [parseEntries_encode PluginConfig.toJson PluginConfig.fromJson plugins
    (fun kv hkv => pluginConfig_roundtrip kv.2 (h2 kv hkv))]
  simp [ofEntries_eq_self plugins h1]

theorem sources_roundtrip (ss : List PluginSource) :
    sourcesFromJson (.arr (ss.map PluginSource.toJson)) = some ss := by
  unfold sourcesFromJson
  exact parseArr_encode _ _ ss (fun s _ => pluginSource_roundtrip s)

/-- C3: saving a well-formed `ProjectConfig` (distinct plugin keys, distinct
setting keys per plugin — the `HashMap` representation invariant) and
loading the result yields the original configuration back: in particular the
plugins map has exactly the same keys and, per key, the same `enabled`,
`version` and structurally equal `settings` (booleans, numbers and strings
preserved exactly). -/
theorem save_then_load_roundtrip (c : ProjectConfig)
    (h1 : NodupKeys c.plugins) (h2 : ∀ kv ∈ c.plugins, NodupKeys kv.2.settings) :
    c.save_then_load = some c := by
  obtain ⟨pj, gs, plugins, sources, pn, pr, ver, st⟩ := c
  simp only [ProjectConfig.save_then_load, ProjectConfig.toJson,
    ProjectConfig.fromJson]
  simp [reqField, List.lookup, projectInfo_roundtrip, globalSettings_roundtrip,
    pluginsMap_roundtrip plugins h1 h2, sources_roundtrip, JValue.asStr]

/-- Witness for C3 on a configuration holding one plugin with a boolean, a
number and a string setting. -/
theorem save_then_load_roundtrip_witness :
    cfgRich.save_then_load = some cfgRich :=
  save_then_load_roundtrip cfgRich (by decide) (by decide)
